import Mathlib

/-!
Verification of the trading-analysis core of the `tradingSystem` repository.

The Python sources under `src/detection/src/` are shallowly embedded over `ℚ`:
Python floats are modelled as exact rationals, list indexing that can raise
`IndexError`/`ZeroDivisionError` is modelled with `Option`, and `round(x, 2)`
is modelled as exact round-half-to-even at two decimal places.  The only
operation with no exact rational counterpart is `np.std` (a floating-point
square root); the pipeline is therefore parameterised by the interpretation
`sqrtQ` of that square root, and no theorem below depends on its value.
-/

attribute [local semireducible] Rat.add Rat.mul Rat.inv Rat.sub Rat.ofScientific

namespace TS

/-- Python's `np.mean` over a list of rationals.  Every call site in the
sources passes a nonempty list (`np.mean([])` would produce `nan`); on `[]`
this model returns `0`. -/
def mean (l : List ℚ) : ℚ := l.sum / l.length

/-- Last element of a list, defaulting to `0`.  Models Python `l[-1]` at call
sites that are guarded by a nonemptiness/length check. -/
def pyLastD (l : List ℚ) : ℚ := l.getLast?.getD 0

/-- Python `max()` over a nonempty list (raises on `[]`; the sources only call
it on nonempty slices, on `[]` this model returns `0`). -/
def listMax : List ℚ → ℚ
  | [] => 0
  | x :: xs => xs.foldl max x

/-- Python `min()` over a nonempty list. -/
def listMin : List ℚ → ℚ
  | [] => 0
  | x :: xs => xs.foldl min x

/-- Round-half-to-even of a rational to an integer, the tie-breaking rule used
by Python's `round`. -/
def rhe (q : ℚ) : ℤ :=
  if q - Rat.floor q < 1/2 then Rat.floor q
  else if 1/2 < q - Rat.floor q then Rat.floor q + 1
  else if Even (Rat.floor q) then Rat.floor q else Rat.floor q + 1

/-- `Rat.floor` (used in `rhe` so that evaluation by `decide` works) agrees
with the mathematical floor. -/
theorem ratFloor_eq (q : ℚ) : Rat.floor q = ⌊q⌋ := by
  rw [Rat.floor_def', Rat.floor_def]

/-- Python `round(x, 2)`: round to two decimal places, ties to even. -/
def round2 (x : ℚ) : ℚ := (rhe (x * 100) : ℚ) / 100

/-- A quantity that is a whole number of cents (two decimal places). -/
def Cent (x : ℚ) : Prop := ∃ k : ℤ, x = (k : ℚ) / 100

theorem rhe_le (q : ℚ) : (rhe q : ℚ) ≤ q + 1/2 := by
  unfold rhe
  rw [ratFloor_eq]
  have h0 : (⌊q⌋ : ℚ) ≤ q := Int.floor_le q
  have h1 : q < (⌊q⌋ : ℚ) + 1 := Int.lt_floor_add_one q
  split
  · linarith
  · split
    · push_cast; linarith
    · split <;> push_cast <;> linarith

theorem le_rhe (q : ℚ) : q - 1/2 ≤ (rhe q : ℚ) := by
  unfold rhe
  rw [ratFloor_eq]
  have h0 : (⌊q⌋ : ℚ) ≤ q := Int.floor_le q
  have h1 : q < (⌊q⌋ : ℚ) + 1 := Int.lt_floor_add_one q
  split
  · linarith
  · split
    · push_cast; linarith
    · split <;> push_cast <;> linarith

theorem round2_le (x : ℚ) : round2 x ≤ x + 1/200 := by
  have h := rhe_le (x * 100)
  unfold round2
  linarith

theorem le_round2 (x : ℚ) : x - 1/200 ≤ round2 x := by
  have h := le_rhe (x * 100)
  unfold round2
  linarith

theorem round2_lt_of_le (x p : ℚ) (h : x ≤ p - 1/100) : round2 x < p := by
  have := round2_le x
  linarith

theorem lt_round2_of_le (x p : ℚ) (h : p + 1/100 ≤ x) : p < round2 x := by
  have := le_round2 x
  linarith

/-- An integer bounded above by `n` stays bounded after round-half-to-even. -/
theorem rhe_le_int (q : ℚ) (n : ℤ) (h : q ≤ (n : ℚ)) : rhe q ≤ n := by
  have h1 : (rhe q : ℚ) ≤ q + 1/2 := rhe_le q
  have h2 : (rhe q : ℚ) < (n : ℚ) + 1 := by linarith
  exact_mod_cast Int.lt_add_one_iff.mp (by exact_mod_cast h2)

theorem int_le_rhe (q : ℚ) (n : ℤ) (h : (n : ℚ) ≤ q) : n ≤ rhe q := by
  have h1 : q - 1/2 ≤ (rhe q : ℚ) := le_rhe q
  have h2 : (n : ℚ) - 1 < (rhe q : ℚ) := by linarith
  have : n - 1 < rhe q := by exact_mod_cast h2
  omega

/-- Insert into an ascending list, before the first strictly larger element.
Together with `sortAsc` this models Python's stable `sorted`. -/
def insertLe (x : ℚ) : List ℚ → List ℚ
  | [] => [x]
  | y :: ys => if x ≤ y then x :: y :: ys else y :: insertLe x ys

/-- Python `sorted(l)` on rational values (insertion sort; as a value list the
result coincides with any stable ascending sort). -/
def sortAsc (l : List ℚ) : List ℚ := l.foldr insertLe []

/-- Insert into a descending list. -/
def insertGe (x : ℚ) : List ℚ → List ℚ
  | [] => [x]
  | y :: ys => if y ≤ x then x :: y :: ys else y :: insertGe x ys

/-- Python `sorted(l, reverse=True)` on rational values. -/
def sortDesc (l : List ℚ) : List ℚ := l.foldr insertGe []

/-- Check whether `pat` occurs as a contiguous run at the head of `l`. -/
def startsWithL : List Char → List Char → Bool
  | _, [] => true
  | [], _ :: _ => false
  | c :: cs, p :: ps => c = p && startsWithL cs ps

/-- Check whether `pat` occurs as a contiguous run anywhere in `l`. -/
def hasSubL : List Char → List Char → Bool
  | [], pat => pat.isEmpty
  | c :: rest, pat => startsWithL (c :: rest) pat || hasSubL rest pat

/-- Python `s.find(pat) >= 0`: substring containment. -/
def strHasSub (s pat : String) : Bool := hasSubL s.data pat.data

/- ========================================================================
   src/detection/src/indicators.py — class TechnicalIndicators
   ======================================================================== -/

/-- `calculate_ma(prices, periods)`: for each period with enough data, the
list of rolling means (`None` during warm-up).  The association list keeps the
iteration order of the Python dict (insertion order of `periods`). -/
def calculate_ma (prices : List ℚ) (periods : List ℕ) :
    List (ℕ × List (Option ℚ)) :=
  periods.filterMap (fun period =>
    if period ≤ prices.length then
      some (period, (List.range prices.length).map (fun i =>
        if period - 1 ≤ i then some (mean ((prices.drop (i + 1 - period)).take period))
        else none))
    else none)

/-- Loop of `calculate_ema`: `ema_value = (price - ema[-1]) * multiplier + ema[-1]`. -/
def emaLoop (mult : ℚ) : List ℚ → ℚ → List ℚ
  | [], _ => []
  | p :: ps, prev =>
    let v := (p - prev) * mult + prev
    v :: emaLoop mult ps v

/-- `calculate_ema(prices, period)`: seed with the simple mean of the first
`period` values, then the recursive EMA formula.  Like the source, there is no
length guard: a shorter input just seeds with the mean of what is there. -/
def calculate_ema (prices : List ℚ) (period : ℕ) : List ℚ :=
  let sma := mean (prices.take period)
  sma :: emaLoop (2 / (period + 1 : ℚ)) (prices.drop period) sma

/-- `calculate_macd(prices, fast, slow, signal)`.  Returns `none` when the
source would raise `IndexError` (an out-of-range list access), and
`some (dif, dea, macd)` otherwise; inputs shorter than `slow` give the empty
series triple. -/
def calculate_macd (prices : List ℚ) (fast slow signal : ℕ) :
    Option (List ℚ × List ℚ × List ℚ) :=
  if prices.length < slow then some ([], [], [])
  else
    let emaFast := calculate_ema prices fast
    let emaSlow := calculate_ema prices slow
    match (List.range emaSlow.length).mapM (fun i =>
        (emaFast.get? (i + (slow - fast))).bind (fun a =>
          (emaSlow.get? i).map (fun b => a - b))) with
    | none => none
    | some dif =>
      let dea := calculate_ema dif signal
      match (List.range dea.length).mapM (fun i =>
          (dif.get? (i + (signal - 1))).bind (fun d =>
            (dea.get? i).map (fun e => (d - e) * 2))) with
      | none => none
      | some macd => some (dif, dea, macd)

/-- The RSV computed at loop position `i` of `calculate_kdj`:
`(close[i]-lowest)/(highest-lowest)*100`, `50` when the window is flat. -/
def rsvAt (high low close : List ℚ) (n i : ℕ) : ℚ :=
  let highest := listMax ((high.drop (i + 1 - n)).take n)
  let lowest := listMin ((low.drop (i + 1 - n)).take n)
  if highest = lowest then 50
  else (close.getD i 0 - lowest) / (highest - lowest) * 100

/-- Loop of `calculate_kdj` over positions `n-1 .. len(close)-1`, smoothing
`K`/`D` recursively from the seed `K = D = 50`. -/
def kdjLoop (high low close : List ℚ) (n m1 m2 : ℕ) :
    List ℕ → ℚ → ℚ → List (ℚ × ℚ × ℚ)
  | [], _, _ => []
  | i :: rest, k, d =>
    let rsv := rsvAt high low close n i
    let k' := (rsv + (m1 - 1 : ℚ) * k) / m1
    let d' := (k' + (m2 - 1 : ℚ) * d) / m2
    let j := 3 * k' - 2 * d'
    (k', d', j) :: kdjLoop high low close n m1 m2 rest k' d'

/-- `calculate_kdj(high, low, close, n, m1, m2)`: the `K`, `D` and `J` series
(empty when `len(close) < n`). -/
def calculate_kdj (high low close : List ℚ) (n m1 m2 : ℕ) :
    List ℚ × List ℚ × List ℚ :=
  if close.length < n then ([], [], [])
  else
    let triples := kdjLoop high low close n m1 m2
      ((List.range (close.length + 1 - n)).map (fun j => j + (n - 1))) 50 50
    (triples.map (·.1), triples.map (·.2.1), triples.map (·.2.2))

/-- Population variance of a window, the square of `np.std`. -/
def popVar (l : List ℚ) : ℚ := mean (l.map (fun x => (x - mean l) ^ 2))

/-- `calculate_boll(prices, period, std_dev)`.  `np.std` is a floating-point
square root with no exact rational counterpart, so the model takes the
interpretation `sqrtQ` of the square root as a parameter; no claim below
depends on its value. -/
def calculate_boll (sqrtQ : ℚ → ℚ) (prices : List ℚ) (period : ℕ)
    (stdDev : ℚ) : List ℚ × List ℚ × List ℚ :=
  if prices.length < period then ([], [], [])
  else
    let rows := (List.range (prices.length + 1 - period)).map (fun j =>
      let i := j + (period - 1)
      let window := (prices.drop (i + 1 - period)).take period
      let ma := mean window
      let std := sqrtQ (popVar window)
      (ma + stdDev * std, ma, ma - stdDev * std))
    (rows.map (·.1), rows.map (·.2.1), rows.map (·.2.2))

/-- The list of consecutive differences `prices[i] - prices[i-1]`. -/
def diffs : List ℚ → List ℚ
  | [] => []
  | [_] => []
  | a :: b :: rest => (b - a) :: diffs (b :: rest)

/-- The RSI value computed at loop position `i` of `calculate_rsi`:
`100` when the average loss over the window is zero, else the
`100 - 100/(1 + rs)` formula. -/
def rsiAt (gains losses : List ℚ) (period i : ℕ) : ℚ :=
  let avgGain := mean ((gains.drop (i + 1 - period)).take period)
  let avgLoss := mean ((losses.drop (i + 1 - period)).take period)
  if avgLoss = 0 then 100
  else 100 - 100 / (1 + avgGain / avgLoss)

/-- `calculate_rsi(prices, period)`: simple moving averages of gains and
losses; `RSI = 100` when the average loss is zero. -/
def calculate_rsi (prices : List ℚ) (period : ℕ) : List ℚ :=
  if prices.length < period + 1 then []
  else
    let changes := diffs prices
    let gains := changes.map (fun c => max c 0)
    let losses := changes.map (fun c => |min c 0|)
    (List.range (gains.length + 1 - period)).map (fun j =>
      rsiAt gains losses period (j + (period - 1)))

/-- True ranges `max(high-low, |high-prevclose|, |low-prevclose|)` for
`i = 1 .. len-1`; `prevs` walks `close`, `highs`/`lows` walk one step ahead. -/
def trList : List ℚ → List ℚ → List ℚ → List ℚ
  | h :: hs, l :: ls, pc :: pcs =>
    max (max (h - l) |h - pc|) |l - pc| :: trList hs ls pcs
  | _, _, _ => []

/-- `calculate_atr(high, low, close, period)`: rolling mean of true range. -/
def calculate_atr (high low close : List ℚ) (period : ℕ) : List ℚ :=
  if close.length < period + 1 then []
  else
    let trs := trList (high.drop 1) (low.drop 1) close
    (List.range (trs.length + 1 - period)).map (fun j =>
      let i := j + (period - 1)
      mean ((trs.drop (i + 1 - period)).take period))

/- ========================================================================
   src/detection/src/trading_theory.py
   ======================================================================== -/

/-- The Fibonacci retracement levels of `FibonacciAnalysis`. -/
def retracementLevels : List ℚ := [0.236, 0.382, 0.5, 0.618, 0.786]

/-- `FibonacciAnalysis.calculate_retracement(high, low)`, as the ordered
(ratio, price) association list of the Python dict. -/
def calculate_retracement (high low : ℚ) : List (ℚ × ℚ) :=
  retracementLevels.map (fun r => (r, high - (high - low) * r))

/-- `FibonacciAnalysis.find_support_resistance`: levels strictly below the
current price sorted nearest-first (descending), the rest ascending. -/
def find_support_resistance (currentPrice high low : ℚ) :
    List ℚ × List ℚ :=
  let retracement := calculate_retracement high low
  let support := (retracement.filter (fun rp => rp.2 < currentPrice)).map (·.2)
  let resistance := (retracement.filter (fun rp => ¬ rp.2 < currentPrice)).map (·.2)
  (sortDesc support, sortAsc resistance)

/-- Strict three-point local maxima `(index, value)`; `b` sits at `i + 1`
when the scan reaches `a :: b :: c :: rest` with `a` at `i`. -/
def peaksAux (i : ℕ) : List ℚ → List (ℕ × ℚ)
  | a :: b :: c :: rest =>
    if b > a ∧ b > c then (i + 1, b) :: peaksAux (i + 1) (b :: c :: rest)
    else peaksAux (i + 1) (b :: c :: rest)
  | _ => []

/-- Strict three-point local minima. -/
def troughsAux (i : ℕ) : List ℚ → List (ℕ × ℚ)
  | a :: b :: c :: rest =>
    if b < a ∧ b < c then (i + 1, b) :: troughsAux (i + 1) (b :: c :: rest)
    else troughsAux (i + 1) (b :: c :: rest)
  | _ => []

/-- Result of `ElliottWaveAnalysis.identify_wave_pattern`.  The insufficient
branch's dict carries no `peaks`/`troughs` keys, hence the `Option`s. -/
structure WaveInfo where
  pattern : String
  phase : String
  peaks : Option ℕ
  troughs : Option ℕ
  deriving DecidableEq, Repr

/-- `ElliottWaveAnalysis.identify_wave_pattern(prices)`. -/
def identify_wave_pattern (prices : List ℚ) : WaveInfo :=
  if prices.length < 8 then ⟨"数据不足", "未知", none, none⟩
  else
    let peaks := peaksAux 0 prices
    let troughs := troughsAux 0 prices
    if 2 ≤ peaks.length ∧ 2 ≤ troughs.length then
      let pLast := (peaks.getD (peaks.length - 1) (0, 0)).2
      let pPrev := (peaks.getD (peaks.length - 2) (0, 0)).2
      let tLast := (troughs.getD (troughs.length - 1) (0, 0)).2
      let tPrev := (troughs.getD (troughs.length - 2) (0, 0)).2
      if pLast > pPrev ∧ tLast > tPrev then
        ⟨"上升趋势", "推动浪", some peaks.length, some troughs.length⟩
      else if pLast < pPrev ∧ tLast < tPrev then
        ⟨"下降趋势", "调整浪", some peaks.length, some troughs.length⟩
      else ⟨"震荡", "盘整", some peaks.length, some troughs.length⟩
    else ⟨"不确定", "观察中", some peaks.length, some troughs.length⟩

/-- Result of `ElliottWaveAnalysis.predict_next_move`. -/
structure WavePrediction where
  prediction : String
  confidence : ℚ
  waveInfo : WaveInfo
  deriving DecidableEq, Repr

/-- `ElliottWaveAnalysis.predict_next_move(prices)`. -/
def predict_next_move (prices : List ℚ) : WavePrediction :=
  let waveInfo := identify_wave_pattern prices
  if waveInfo.pattern = "上升趋势" then
    if waveInfo.phase = "推动浪" then ⟨"继续上涨概率高", 0.7, waveInfo⟩
    else ⟨"可能回调", 0.6, waveInfo⟩
  else if waveInfo.pattern = "下降趋势" then
    if waveInfo.phase = "推动浪" then ⟨"继续下跌概率高", 0.7, waveInfo⟩
    else ⟨"可能反弹", 0.6, waveInfo⟩
  else ⟨"震荡为主，等待突破", 0.5, waveInfo⟩

/-- Direction of a "bi" (directional segment). -/
inductive Dir where
  | up
  | down
  deriving DecidableEq, Repr

/-- One "bi" of `ChanTheoryAnalysis.identify_bi`
(`{'type', 'start', 'end', 'start_price', 'end_price'}`). -/
structure Bi where
  type : Dir
  start : ℕ
  endIdx : ℕ
  startPrice : ℚ
  endPrice : ℚ
  deriving DecidableEq, Repr

/-- Scan loop of `identify_bi`: `prevIdx`/`prevPrice` are position `i - 1`,
`rest` the closes from position `i` on, `dir?` the current direction and
`startIdx`/`startPrice` the open segment's origin. -/
def biLoop : List ℚ → ℕ → ℚ → Option Dir → ℕ → ℚ → List Bi
  | [], _, _, _, _, _ => []
  | c :: cs, prevIdx, prevPrice, dir?, startIdx, startPrice =>
    match dir? with
    | none =>
      if c > prevPrice then
        biLoop cs (prevIdx + 1) c (some .up) startIdx startPrice
      else if c < prevPrice then
        biLoop cs (prevIdx + 1) c (some .down) startIdx startPrice
      else biLoop cs (prevIdx + 1) c none startIdx startPrice
    | some .up =>
      if c < prevPrice then
        ⟨.up, startIdx, prevIdx, startPrice, prevPrice⟩ ::
          biLoop cs (prevIdx + 1) c (some .down) prevIdx prevPrice
      else biLoop cs (prevIdx + 1) c (some .up) startIdx startPrice
    | some .down =>
      if c > prevPrice then
        ⟨.down, startIdx, prevIdx, startPrice, prevPrice⟩ ::
          biLoop cs (prevIdx + 1) c (some .up) prevIdx prevPrice
      else biLoop cs (prevIdx + 1) c (some .down) startIdx startPrice

/-- `ChanTheoryAnalysis.identify_bi(high, low, close)` (the source only reads
`close`). -/
def identify_bi (_high _low close : List ℚ) : List Bi :=
  if close.length < 5 then []
  else
    match close with
    | [] => []
    | c0 :: cs => biLoop cs 0 c0 none 0 c0

/-- Result of `ChanTheoryAnalysis.analyze_trend`.  The insufficient branch's
dict carries no `bi_count` key, hence the `Option`. -/
structure ChanTrend where
  trend : String
  strength : ℚ
  biCount : Option ℕ
  deriving DecidableEq, Repr

/-- Python `l[::2]`: every other element starting at the first. -/
def stride2 {α : Type} : List α → List α
  | [] => []
  | [a] => [a]
  | a :: _ :: rest => a :: stride2 rest

/-- `ChanTheoryAnalysis.analyze_trend(bi_list)`: examines every other of the
last three segments. -/
def analyze_trend (biList : List Bi) : ChanTrend :=
  if biList.length < 3 then ⟨"数据不足", 0, none⟩
  else
    let recentBi := biList.drop (biList.length - 3)
    if (stride2 recentBi).all (fun bi => bi.type = .up) then
      ⟨"强势上涨", 0.8, some biList.length⟩
    else if (stride2 recentBi).all (fun bi => bi.type = .down) then
      ⟨"强势下跌", 0.8, some biList.length⟩
    else ⟨"震荡", 0.5, some biList.length⟩

/-- An `np.float64` value as far as `identify_phase` observes it: either an
exact (rational) value or one of the non-finite results a zero-divisor
division produces.  numpy division by zero warns and yields `inf`/`-inf`/
`nan`; it does not raise. -/
inductive PyFloat where
  | fin (q : ℚ)
  | posInf
  | negInf
  | nan
  deriving DecidableEq, Repr

/-- IEEE comparison `x > c` for the values of `PyFloat`: `inf > c` is true,
`-inf > c` and `nan > c` are false. -/
def PyFloat.gtQ (x : PyFloat) (c : ℚ) : Bool :=
  match x with
  | .fin v => v > c
  | .posInf => true
  | .negInf => false
  | .nan => false

/-- Result of `WyckoffAnalysis.identify_phase`.  The insufficient branch's
dict carries no `price_change`/`volume_change` keys, hence the `Option`s. -/
structure PhaseInfo where
  phase : String
  action : String
  priceChange : Option ℚ
  volumeChange : Option PyFloat
  deriving DecidableEq, Repr

/-- `WyckoffAnalysis.identify_phase(prices, volumes)`.  Returns `none` only
when the source raises: `prices[0] == 0` makes the (plain-float) price-change
division raise `ZeroDivisionError`.  The volume-change division is between
`np.float64` values, so a zero first-half average volume does NOT raise: it
yields a non-finite float (modelled by `PyFloat`) and classification
proceeds with IEEE comparison semantics. -/
def identify_phase (prices volumes : List ℚ) : Option PhaseInfo :=
  if prices.length < 10 ∨ volumes.length < 10 then
    some ⟨"数据不足", "观察", none, none⟩
  else
    let p0 := prices.headD 0
    if p0 = 0 then none
    else
      let priceChange := (pyLastD prices - p0) / p0
      let avgVolumeEarly := mean (volumes.take (volumes.length / 2))
      let avgVolumeLate := mean (volumes.drop (volumes.length / 2))
      let volumeChange : PyFloat :=
        if avgVolumeEarly = 0 then
          if avgVolumeLate > 0 then .posInf
          else if avgVolumeLate < 0 then .negInf
          else .nan
        else .fin ((avgVolumeLate - avgVolumeEarly) / avgVolumeEarly)
      if |priceChange| < 0.02 ∧ volumeChange.gtQ 0.3 then
        if pyLastD prices > prices.getD (prices.length - 5) 0 then
          some ⟨"吸筹阶段（Accumulation）", "准备做多", some priceChange, some volumeChange⟩
        else
          some ⟨"派发阶段（Distribution）", "准备做空", some priceChange, some volumeChange⟩
      else if priceChange > 0.05 ∧ volumeChange.gtQ 0 then
        some ⟨"上涨阶段（Markup）", "持有多单", some priceChange, some volumeChange⟩
      else if priceChange < -0.05 ∧ volumeChange.gtQ 0 then
        some ⟨"下跌阶段（Markdown）", "持有空单或离场", some priceChange, some volumeChange⟩
      else some ⟨"观察阶段", "等待信号", some priceChange, some volumeChange⟩

/-- Result of `WyckoffAnalysis.analyze_supply_demand`.  The insufficient
branch's dict carries no `trend` key, hence the `Option`. -/
structure SupplyDemand where
  balance : String
  strength : ℚ
  trend : Option String
  deriving DecidableEq, Repr

/-- `WyckoffAnalysis.analyze_supply_demand(prices, volumes)`. -/
def analyze_supply_demand (prices volumes : List ℚ) : SupplyDemand :=
  if prices.length < 5 then ⟨"未知", 0, none⟩
  else
    let recentPrices := prices.drop (prices.length - 5)
    let recentVolumes := volumes.drop (volumes.length - 5)
    let priceTrend := pyLastD recentPrices - recentPrices.headD 0
    let volumeAvg := mean recentVolumes
    let lastVol := pyLastD recentVolumes
    let bs : String × ℚ :=
      if priceTrend > 0 ∧ lastVol > volumeAvg then ("需求大于供给", 0.7)
      else if priceTrend < 0 ∧ lastVol > volumeAvg then ("供给大于需求", 0.7)
      else if priceTrend > 0 ∧ lastVol < volumeAvg then ("需求减弱", 0.4)
      else if priceTrend < 0 ∧ lastVol < volumeAvg then ("供给减弱", 0.4)
      else ("供需平衡", 0.5)
    ⟨bs.1, bs.2, some (if priceTrend > 0 then "上涨" else "下跌")⟩

/- ========================================================================
   src/detection/src/trading_advisor.py — class TradingAdvisor
   ======================================================================== -/

/-- A per-family signal result: the label string (dict key `trend` for MA,
`signal` for the others) and the score.  The presentational detail-string
lists and raw-value maps of the source dicts are not modelled. -/
structure SignalScore where
  label : String
  score : ℚ
  deriving DecidableEq, Repr

/-- The last defined value of one `ma_dict` entry: Python's
`v and v[-1] is not None` guard followed by `v[-1]`. -/
def lastDefined (pv : ℕ × List (Option ℚ)) : Option ℚ :=
  match pv.2.getLast? with
  | some (some v) => some v
  | _ => none

/-- `_analyze_ma_signal(current_price, ma_dict)`: ±1 per moving average the
price is above/at-or-below, ±2 when the last MA values equal their
descending (bullish) or ascending (bearish) sort. -/
def analyze_ma_signal (currentPrice : ℚ)
    (maDict : List (ℕ × List (Option ℚ))) : SignalScore :=
  let score1 := maDict.foldl (fun acc pv =>
    match pv.2.getLast? with
    | some (some maValue) => if currentPrice > maValue then acc + 1 else acc - 1
    | _ => acc) (0 : ℚ)
  let maValues := maDict.filterMap (lastDefined)
  let score := if maValues = sortDesc maValues then score1 + 2
               else if maValues = sortAsc maValues then score1 - 2
               else score1
  let trend := if score > 3 then "强烈看多" else if score > 0 then "看多"
               else if score < -3 then "强烈看空" else if score < 0 then "看空"
               else "中性"
  ⟨trend, score⟩

/-- Python `l[-2]`: defined only when the list has at least two elements;
a shorter list raises `IndexError` (modelled as `none`). -/
def pyPenultimate (l : List ℚ) : Option ℚ :=
  if 2 ≤ l.length then l.get? (l.length - 2) else none

/-- `_analyze_macd_signal(macd)`.  `macd["MACD"][-1]` and (when
`len(DIF) >= 2` and the last DIF and DEA values differ) `macd["DEA"][-2]`
are read without a matching length guard; `none` models the `IndexError` of
such a read.  Python's `and` short-circuits, so the `[-2]` reads only happen
in the branch whose leading comparison holds. -/
def analyze_macd_signal (dif dea macd : List ℚ) : Option SignalScore :=
  if dif = [] ∨ dea = [] then some ⟨"数据不足", 0⟩
  else
    match dif.getLast?, dea.getLast?, macd.getLast? with
    | some difLast, some deaLast, some macdBar =>
      let crossStep : Option ℚ :=
        if 2 ≤ dif.length then
          if difLast > deaLast then
            match pyPenultimate dif, pyPenultimate dea with
            | some dif2, some dea2 => some (if dif2 ≤ dea2 then 2 else 0)
            | _, _ => none
          else if difLast < deaLast then
            match pyPenultimate dif, pyPenultimate dea with
            | some dif2, some dea2 => some (if dif2 ≥ dea2 then -2 else 0)
            | _, _ => none
          else some 0
        else some 0
      match crossStep with
      | none => none
      | some cross =>
        let zeroAxis : ℚ :=
          if difLast > 0 ∧ deaLast > 0 then 1
          else if difLast < 0 ∧ deaLast < 0 then -1 else 0
        let hist : ℚ := if macdBar > 0 then 0.5 else -0.5
        let score := cross + zeroAxis + hist
        let signal := if score > 2 then "强烈买入" else if score > 0 then "买入"
                      else if score < -2 then "强烈卖出" else if score < 0 then "卖出"
                      else "观望"
        some ⟨signal, score⟩
    | _, _, _ => none

/-- `_analyze_kdj_signal(kdj)`: overbought/oversold ±1, crossover ±1.5,
J-value extremes ∓0.5.  The `[-2]` reads are guarded only by `len(K) >= 2`
and short-circuit like in `_analyze_macd_signal`. -/
def analyze_kdj_signal (kList dList jList : List ℚ) : Option SignalScore :=
  if kList = [] then some ⟨"数据不足", 0⟩
  else
    match kList.getLast?, dList.getLast?, jList.getLast? with
    | some k, some d, some j =>
      let overStep : ℚ :=
        if k > 80 ∧ d > 80 then -1 else if k < 20 ∧ d < 20 then 1 else 0
      let crossStep : Option ℚ :=
        if 2 ≤ kList.length then
          if k > d then
            match pyPenultimate kList, pyPenultimate dList with
            | some k2, some d2 => some (if k2 ≤ d2 then 1.5 else 0)
            | _, _ => none
          else if k < d then
            match pyPenultimate kList, pyPenultimate dList with
            | some k2, some d2 => some (if k2 ≥ d2 then -1.5 else 0)
            | _, _ => none
          else some 0
        else some 0
      match crossStep with
      | none => none
      | some cross =>
        let jStep : ℚ := if j > 100 then -0.5 else if j < 0 then 0.5 else 0
        let score := overStep + cross + jStep
        let signal := if score > 1.5 then "买入" else if score < -1.5 then "卖出"
                      else "观望"
        some ⟨signal, score⟩
    | _, _, _ => none

/-- `_analyze_boll_signal(current_price, boll)`.  The bandwidth
`(upper - lower) / middle` only feeds a presentational detail string and is
not modelled (as an `np.float64` ratio it cannot raise). -/
def analyze_boll_signal (currentPrice : ℚ) (upper middle lower : List ℚ) :
    Option SignalScore :=
  if middle = [] then some ⟨"数据不足", 0⟩
  else
    match upper.getLast?, middle.getLast?, lower.getLast? with
    | some u, some m, some l =>
      let score : ℚ :=
        if currentPrice > u then -1
        else if currentPrice < l then 1
        else if currentPrice > m then 0.5
        else -0.5
      let signal := if score > 0.5 then "偏多" else if score < -0.5 then "偏空"
                    else "中性"
      some ⟨signal, score⟩
    | _, _, _ => none

/-- `_analyze_rsi_signal(rsi)`. -/
def analyze_rsi_signal (rsi : List ℚ) : SignalScore :=
  if rsi = [] then ⟨"数据不足", 0⟩
  else
    let rsiValue := pyLastD rsi
    let score : ℚ :=
      if rsiValue > 70 then -1
      else if rsiValue < 30 then 1
      else if rsiValue > 50 then 0.5
      else -0.5
    let signal := if score > 0.5 then "偏多" else if score < -0.5 then "偏空"
                  else "中性"
    ⟨signal, score⟩

/-- Result of `_analyze_indicators` (the presentational `*_values` maps are
not modelled). -/
structure IndicatorsAnalysis where
  ma : SignalScore
  macd : SignalScore
  kdj : SignalScore
  boll : SignalScore
  rsi : SignalScore
  volatility : ℚ
  deriving DecidableEq, Repr

/-- `_analyze_indicators(closes, highs, lows, volumes)` (the `volumes`
parameter is unused by the source as well). -/
def analyze_indicators (sqrtQ : ℚ → ℚ)
    (closes highs lows _volumes : List ℚ) : Option IndicatorsAnalysis :=
  let currentPrice := pyLastD closes
  let maDict := calculate_ma closes [5, 10, 20, 30, 60]
  let maSignal := analyze_ma_signal currentPrice maDict
  match calculate_macd closes 12 26 9 with
  | none => none
  | some (dif, dea, macd) =>
    match analyze_macd_signal dif dea macd with
    | none => none
    | some macdSignal =>
      let kdj := calculate_kdj highs lows closes 9 3 3
      match analyze_kdj_signal kdj.1 kdj.2.1 kdj.2.2 with
      | none => none
      | some kdjSignal =>
        let boll := calculate_boll sqrtQ closes 20 2
        match analyze_boll_signal currentPrice boll.1 boll.2.1 boll.2.2 with
        | none => none
        | some bollSignal =>
          let rsi := calculate_rsi closes 14
          let rsiSignal := analyze_rsi_signal rsi
          let atr := calculate_atr highs lows closes 14
          let volatility := if atr = [] then 0 else pyLastD atr
          some ⟨maSignal, macdSignal, kdjSignal, bollSignal, rsiSignal, volatility⟩

/-- Result of `_analyze_fibonacci`. -/
structure FibAnalysis where
  high : ℚ
  low : ℚ
  retracement : List (ℚ × ℚ)
  support : List ℚ
  resistance : List ℚ
  deriving DecidableEq, Repr

/-- `_analyze_fibonacci(closes, highs, lows, current_price)` (the `closes`
parameter is unused by the source as well). -/
def analyze_fibonacci (_closes highs lows : List ℚ) (currentPrice : ℚ) :
    FibAnalysis :=
  let high := listMax (highs.drop (highs.length - 20))
  let low := listMin (lows.drop (lows.length - 20))
  let sr := find_support_resistance currentPrice high low
  ⟨high, low, calculate_retracement high low, sr.1, sr.2⟩

/-- Result of `_analyze_elliott`. -/
structure ElliottAnalysis where
  pattern : WaveInfo
  prediction : WavePrediction
  deriving DecidableEq, Repr

/-- `_analyze_elliott(closes)`. -/
def analyze_elliott (closes : List ℚ) : ElliottAnalysis :=
  ⟨identify_wave_pattern closes, predict_next_move closes⟩

/-- Result of `_analyze_chan`. -/
structure ChanAnalysis where
  biCount : ℕ
  trend : ChanTrend
  deriving DecidableEq, Repr

/-- `_analyze_chan(highs, lows, closes)`. -/
def analyze_chan (highs lows closes : List ℚ) : ChanAnalysis :=
  let biList := identify_bi highs lows closes
  ⟨biList.length, analyze_trend biList⟩

/-- Result of `_analyze_wyckoff`. -/
structure WyckoffAnalysis where
  phase : PhaseInfo
  supplyDemand : SupplyDemand
  deriving DecidableEq, Repr

/-- `_analyze_wyckoff(closes, volumes)`; `none` propagates a division failure
from `identify_phase`. -/
def analyze_wyckoff (closes volumes : List ℚ) : Option WyckoffAnalysis :=
  match identify_phase closes volumes with
  | none => none
  | some phase => some ⟨phase, analyze_supply_demand closes volumes⟩

/-- Result of `_calculate_score` (each field rounded to two decimals as in
the returned dict). -/
structure ScoreDict where
  total : ℚ
  indicatorScore : ℚ
  elliottScore : ℚ
  chanScore : ℚ
  wyckoffScore : ℚ
  deriving DecidableEq, Repr

/-- `_calculate_score(indicators, fib, elliott, chan, wyckoff)` (the `fib`
parameter is unused by the source as well). -/
def calculate_score (indicators : IndicatorsAnalysis) (_fib : FibAnalysis)
    (elliott : ElliottAnalysis) (chan : ChanAnalysis)
    (wyckoff : WyckoffAnalysis) : ScoreDict :=
  let indicatorScore :=
    indicators.ma.score * 0.25 + indicators.macd.score * 0.25 +
    indicators.kdj.score * 0.2 + indicators.boll.score * 0.15 +
    indicators.rsi.score * 0.15
  let elliottScore0 := elliott.prediction.confidence * 2 - 1
  let elliottScore :=
    if strHasSub elliott.prediction.prediction "上涨" then |elliottScore0|
    else -|elliottScore0|
  let chanScore0 := chan.trend.strength * 2 - 1
  let chanScore :=
    if strHasSub chan.trend.trend "上涨" then |chanScore0| else -|chanScore0|
  let wyckoffScore0 := wyckoff.supplyDemand.strength * 2 - 1
  let wyckoffScore :=
    if wyckoff.supplyDemand.trend = some "上涨" then |wyckoffScore0|
    else -|wyckoffScore0|
  let totalScore :=
    indicatorScore * 0.4 + elliottScore * 0.2 + chanScore * 0.2 +
    wyckoffScore * 0.2
  let normalizedScore := (totalScore + 5) / 10 * 100
  let clamped := max 0 (min 100 normalizedScore)
  ⟨round2 clamped, round2 indicatorScore, round2 elliottScore,
   round2 chanScore, round2 wyckoffScore⟩

/-- Trade direction (`"做多（买入）"` / `"做空（卖出）"` / `"观望"`). -/
inductive Direction where
  | long
  | short
  | flat
  deriving DecidableEq, Repr

/-- Confidence tier (`"高"` / `"中"` / `"不建议交易"`). -/
inductive Confidence where
  | high
  | medium
  | noTrade
  deriving DecidableEq, Repr

/-- The direction/confidence decision at the head of
`_generate_recommendations`. -/
def tradeDirection (totalScore : ℚ) : Direction × Confidence :=
  if totalScore > 65 then (.long, .high)
  else if totalScore > 55 then (.long, .medium)
  else if totalScore < 35 then (.short, .high)
  else if totalScore < 45 then (.short, .medium)
  else (.flat, .noTrade)

/-- A per-horizon map over the keys `15min`, `1h`, `4h`, `24h`. -/
structure Horizons (α : Type) where
  m15 : α
  h1 : α
  h4 : α
  h24 : α
  deriving DecidableEq, Repr

/-- Apply a function to each horizon entry. -/
def Horizons.map {α β : Type} (f : α → β) (h : Horizons α) : Horizons β :=
  ⟨f h.m15, f h.h1, f h.h4, f h.h24⟩

/-- `_calculate_stop_loss_long(price, atr, fib)`. -/
def calculate_stop_loss_long (price atr : ℚ) (fib : FibAnalysis) :
    Horizons ℚ :=
  let support := fib.support.headD (price * 0.95)
  ⟨round2 (price - atr * 1),
   round2 (max (price - atr * 2) support),
   round2 (max (price - atr * 3) support),
   round2 (max (price - atr * 5) fib.low)⟩

/-- `_calculate_take_profit_long(price, atr, fib)`. -/
def calculate_take_profit_long (price atr : ℚ) (fib : FibAnalysis) :
    Horizons ℚ :=
  let resistance := fib.resistance.headD (price * 1.05)
  ⟨round2 (price + atr * 1.5),
   round2 (min (price + atr * 3) resistance),
   round2 (min (price + atr * 5) resistance),
   round2 (min (price + atr * 8) fib.high)⟩

/-- `_calculate_stop_loss_short(price, atr, fib)`. -/
def calculate_stop_loss_short (price atr : ℚ) (fib : FibAnalysis) :
    Horizons ℚ :=
  let resistance := fib.resistance.headD (price * 1.05)
  ⟨round2 (price + atr * 1),
   round2 (min (price + atr * 2) resistance),
   round2 (min (price + atr * 3) resistance),
   round2 (min (price + atr * 5) fib.high)⟩

/-- `_calculate_take_profit_short(price, atr, fib)`. -/
def calculate_take_profit_short (price atr : ℚ) (fib : FibAnalysis) :
    Horizons ℚ :=
  let support := fib.support.headD (price * 0.95)
  ⟨round2 (price - atr * 1.5),
   round2 (max (price - atr * 3) support),
   round2 (max (price - atr * 5) support),
   round2 (max (price - atr * 8) fib.low)⟩

/-- `_predict_timeframes(score, direction)`. -/
def predict_timeframes (score : ℚ) (direction : Direction) :
    Horizons String :=
  match direction with
  | .long =>
    ⟨if score > 55 then "上涨" else "震荡",
     if score > 60 then "上涨" else "震荡",
     if score > 65 then "上涨" else "震荡上涨",
     if score > 70 then "上涨" else "震荡"⟩
  | .short =>
    ⟨if score < 45 then "下跌" else "震荡",
     if score < 40 then "下跌" else "震荡",
     if score < 35 then "下跌" else "震荡下跌",
     if score < 30 then "下跌" else "震荡"⟩
  | .flat => ⟨"震荡", "震荡", "震荡", "震荡"⟩

/-- One horizon entry of `_calculate_risk_reward`: Python's `if sl and tp:`
is falsy both for `None` and for `0.0`, and a zero risk yields the number
`0`, not `None`. -/
def rrOne (price : ℚ) : Option ℚ → Option ℚ → Option ℚ
  | some sl, some tp =>
    if sl = 0 ∨ tp = 0 then none
    else
      let risk := |price - sl|
      let reward := |tp - price|
      some (round2 (if risk > 0 then reward / risk else 0))
  | _, _ => none

/-- `_calculate_risk_reward(price, stop_loss, take_profit)`. -/
def calculate_risk_reward (price : ℚ)
    (stopLoss takeProfit : Horizons (Option ℚ)) : Horizons (Option ℚ) :=
  ⟨rrOne price stopLoss.m15 takeProfit.m15,
   rrOne price stopLoss.h1 takeProfit.h1,
   rrOne price stopLoss.h4 takeProfit.h4,
   rrOne price stopLoss.h24 takeProfit.h24⟩

/-- Result of `_generate_recommendations`. -/
structure Recommendation where
  direction : Direction
  confidence : Confidence
  score : ℚ
  stopLoss : Horizons (Option ℚ)
  takeProfit : Horizons (Option ℚ)
  predictions : Horizons String
  riskReward : Horizons (Option ℚ)
  deriving DecidableEq, Repr

/-- `_generate_recommendations(current_price, score, indicators, fib)`; the
only field of `indicators` it reads is `volatility` (the last ATR value). -/
def generate_recommendations (currentPrice : ℚ) (score : ScoreDict)
    (volatility : ℚ) (fib : FibAnalysis) : Recommendation :=
  let totalScore := score.total
  let dc := tradeDirection totalScore
  let slTp : Horizons (Option ℚ) × Horizons (Option ℚ) :=
    match dc.1 with
    | .long =>
      ((calculate_stop_loss_long currentPrice volatility fib).map some,
       (calculate_take_profit_long currentPrice volatility fib).map some)
    | .short =>
      ((calculate_stop_loss_short currentPrice volatility fib).map some,
       (calculate_take_profit_short currentPrice volatility fib).map some)
    | .flat => (⟨none, none, none, none⟩, ⟨none, none, none, none⟩)
  ⟨dc.1, dc.2, totalScore, slTp.1, slTp.2,
   predict_timeframes totalScore dc.1,
   calculate_risk_reward currentPrice slTp.1 slTp.2⟩

/-- One input candle; only the fields read by the core are modelled
(the remaining kline fields are never accessed by the analysis). -/
structure Candle where
  open_ : ℚ
  high : ℚ
  low : ℚ
  close : ℚ
  volume : ℚ
  deriving DecidableEq, Repr

/-- The fully-computed analysis dict of `analyze_comprehensive`. -/
structure FullAnalysis where
  currentPrice : ℚ
  indicators : IndicatorsAnalysis
  fibonacci : FibAnalysis
  elliottWave : ElliottAnalysis
  chanTheory : ChanAnalysis
  wyckoff : WyckoffAnalysis
  score : ScoreDict
  recommendations : Recommendation
  deriving DecidableEq, Repr

/-- Either the explicit insufficient-data error dict
(`{"error": "数据不足，至少需要30根K线"}`) or a full analysis. -/
inductive AnalysisResult where
  | insufficient
  | ok (a : FullAnalysis)
  deriving DecidableEq, Repr

/-- `TradingAdvisor.analyze_comprehensive(klines)`.  `none` models an
uncaught exception escaping the call. -/
def analyze_comprehensive (sqrtQ : ℚ → ℚ) (klines : List Candle) :
    Option AnalysisResult :=
  if klines.length < 30 then some .insufficient
  else
    let closes := klines.map (·.close)
    let highs := klines.map (·.high)
    let lows := klines.map (·.low)
    let volumes := klines.map (·.volume)
    let currentPrice := pyLastD closes
    match analyze_indicators sqrtQ closes highs lows volumes with
    | none => none
    | some indicatorsAnalysis =>
      let fibAnalysis := analyze_fibonacci closes highs lows currentPrice
      let elliottAnalysis := analyze_elliott closes
      let chanAnalysis := analyze_chan highs lows closes
      match analyze_wyckoff closes volumes with
      | none => none
      | some wyckoffAnalysis =>
        let score := calculate_score indicatorsAnalysis fibAnalysis
          elliottAnalysis chanAnalysis wyckoffAnalysis
        let recommendations := generate_recommendations currentPrice score
          indicatorsAnalysis.volatility fibAnalysis
        some (.ok ⟨currentPrice, indicatorsAnalysis, fibAnalysis,
          elliottAnalysis, chanAnalysis, wyckoffAnalysis, score,
          recommendations⟩)

/- ========================================================================
   Helper lemmas
   ======================================================================== -/

/-- The alternation relation between adjacent segments: one is `up` and the
other `down`. -/
def altBi (a b : Bi) : Prop :=
  (a.type = Dir.up ∧ b.type = Dir.down) ∨ (a.type = Dir.down ∧ b.type = Dir.up)

/-- Invariant of the `identify_bi` scan loop: the emitted segments alternate,
and when a direction is open the next emitted segment carries it. -/
theorem biLoop_invariant (cs : List ℚ) : ∀ (prevIdx : ℕ) (prevPrice : ℚ)
    (dir? : Option Dir) (startIdx : ℕ) (startPrice : ℚ),
    List.Chain' altBi (biLoop cs prevIdx prevPrice dir? startIdx startPrice) ∧
    (∀ dcur b, dir? = some dcur →
      (biLoop cs prevIdx prevPrice dir? startIdx startPrice).head? = some b →
      b.type = dcur) := by
  induction cs with
  | nil =>
    intro prevIdx prevPrice dir? startIdx startPrice
    refine ⟨by simp [biLoop], ?_⟩
    intro dcur b _ hb
    simp [biLoop] at hb
  | cons c cs ih =>
    intro prevIdx prevPrice dir? startIdx startPrice
    match dir? with
    | none =>
      rw [biLoop]
      split
      · exact ⟨(ih _ _ _ _ _).1, by intro dcur b h; cases h⟩
      · split
        · exact ⟨(ih _ _ _ _ _).1, by intro dcur b h; cases h⟩
        · exact ⟨(ih _ _ _ _ _).1, by intro dcur b h; cases h⟩
    | some Dir.up =>
      rw [biLoop]
      split
      · refine ⟨?_, ?_⟩
        · rw [List.chain'_cons']
          refine ⟨?_, (ih _ _ _ _ _).1⟩
          intro y hy
          have hdown := (ih (prevIdx + 1) c (some Dir.down) prevIdx
            prevPrice).2 Dir.down y rfl (by simpa using hy)
          exact Or.inl ⟨rfl, hdown⟩
        · intro dcur b hd hb
          cases hd
          simp at hb
          rw [← hb]
      · refine ⟨(ih _ _ _ _ _).1, ?_⟩
        intro dcur b hd hb
        cases hd
        exact (ih (prevIdx + 1) c (some Dir.up) startIdx startPrice).2
          Dir.up b rfl hb
    | some Dir.down =>
      rw [biLoop]
      split
      · refine ⟨?_, ?_⟩
        · rw [List.chain'_cons']
          refine ⟨?_, (ih _ _ _ _ _).1⟩
          intro y hy
          have hup := (ih (prevIdx + 1) c (some Dir.up) prevIdx
            prevPrice).2 Dir.up y rfl (by simpa using hy)
          exact Or.inr ⟨rfl, hup⟩
        · intro dcur b hd hb
          cases hd
          simp at hb
          rw [← hb]
      · refine ⟨(ih _ _ _ _ _).1, ?_⟩
        intro dcur b hd hb
        cases hd
        exact (ih (prevIdx + 1) c (some Dir.down) startIdx startPrice).2
          Dir.down b rfl hb

/-- The segments produced by `identify_bi` alternate. -/
theorem identify_bi_chain' (high low close : List ℚ) :
    List.Chain' altBi (identify_bi high low close) := by
  unfold identify_bi
  split
  · simp
  · match close with
    | [] => simp
    | c0 :: cs => exact (biLoop_invariant cs 0 c0 none 0 c0).1

/- ========================================================================
   Claim theorems
   ======================================================================== -/

/-- C8.  For every close-price series, `identify_bi` never emits two
consecutive segments of the same direction: each adjacent pair has one `up`
and one `down` segment. -/
theorem C8_bi_alternation (high low close : List ℚ) :
    List.Chain' (fun a b => (a.type = Dir.up ∧ b.type = Dir.down) ∨
      (a.type = Dir.down ∧ b.type = Dir.up)) (identify_bi high low close) :=
  identify_bi_chain' high low close

/-- C6.  The direction/confidence decision of `_generate_recommendations` as
a function of the composite total: `>65` long/high, `55<t≤65` long/medium,
`<35` short/high, `35≤t<45` short/medium, and flat/no-trade on `[45,55]`. -/
theorem C6_direction_thresholds (t : ℚ) :
    (65 < t → tradeDirection t = (Direction.long, Confidence.high)) ∧
    (55 < t ∧ t ≤ 65 → tradeDirection t = (Direction.long, Confidence.medium)) ∧
    (t < 35 → tradeDirection t = (Direction.short, Confidence.high)) ∧
    (35 ≤ t ∧ t < 45 → tradeDirection t = (Direction.short, Confidence.medium)) ∧
    (45 ≤ t ∧ t ≤ 55 → tradeDirection t = (Direction.flat, Confidence.noTrade)) := by
  refine ⟨?_, ?_, ?_, ?_, ?_⟩ <;>
    (intro h; unfold tradeDirection;
     split_ifs <;>
       first
       | rfl
       | (exfalso; try obtain ⟨h1, h2⟩ := h
          linarith))

/-- C10.  Because `identify_bi`'s segments alternate, the strided check of
`analyze_trend` over the last three segments is equivalent to inspecting the
most recent segment alone: with at least 3 segments the result is the strong
up- or down-trend of strength `0.8` according to the last segment's
direction, and never the oscillating result. -/
theorem C10_trend_equiv (high low close : List ℚ) (b : Bi)
    (hlen : 3 ≤ (identify_bi high low close).length)
    (hlast : (identify_bi high low close).getLast? = some b) :
    analyze_trend (identify_bi high low close) =
      ⟨if b.type = Dir.up then "强势上涨" else "强势下跌", 0.8,
        some (identify_bi high low close).length⟩ ∧
    (analyze_trend (identify_bi high low close)).trend ≠ "震荡" := by
  set bi := identify_bi high low close with hbi
  have hch : List.Chain' altBi bi := identify_bi_chain' high low close
  have hdlen : (bi.drop (bi.length - 3)).length = 3 := by
    rw [List.length_drop]; omega
  obtain ⟨x, y, z, hxyz⟩ := List.length_eq_three.mp hdlen
  have hsplit : bi = bi.take (bi.length - 3) ++ [x, y, z] := by
    rw [← hxyz, List.take_append_drop]
  have hch3 : List.Chain' altBi [x, y, z] := by
    rw [hsplit] at hch
    exact (List.chain'_append.mp hch).2.1
  have hxy : altBi x y := (List.chain'_cons'.mp hch3).1 y rfl
  have hyz : altBi y z :=
    (List.chain'_cons'.mp (List.chain'_cons'.mp hch3).2).1 z rfl
  have hxz : x.type = z.type := by
    rcases hxy with ⟨hx1, hy1⟩ | ⟨hx1, hy1⟩ <;>
      rcases hyz with ⟨hy2, hz2⟩ | ⟨hy2, hz2⟩ <;>
      first
      | (rw [hy1] at hy2; exact absurd hy2 (by decide))
      | (rw [hx1, hz2])
  have hbz : b = z := by
    rw [hsplit, List.getLast?_append] at hlast
    simp [Option.or] at hlast
    exact hlast.symm
  have hnlt : ¬ bi.length < 3 := by omega
  unfold analyze_trend
  rw [if_neg hnlt, hxyz]
  cases hz : z.type with
  | up =>
    have hx : x.type = Dir.up := hxz.trans hz
    simp [stride2, List.all, hx, hz, hbz]
  | down =>
    have hx : x.type = Dir.down := hxz.trans hz
    simp [stride2, List.all, hx, hz, hbz]

/-- C10 witness: a six-point zig-zag whose last segment is a down segment. -/
theorem C10_witness :
    analyze_trend (identify_bi [] [] [1, 2, 1, 2, 1, 2]) =
      ⟨if (⟨Dir.down, 3, 4, 2, 1⟩ : Bi).type = Dir.up then "强势上涨"
        else "强势下跌", 0.8,
        some (identify_bi [] [] [1, 2, 1, 2, 1, 2]).length⟩ ∧
    (analyze_trend (identify_bi [] [] [1, 2, 1, 2, 1, 2])).trend ≠ "震荡" :=
  C10_trend_equiv [] [] [1, 2, 1, 2, 1, 2] ⟨Dir.down, 3, 4, 2, 1⟩
    (by decide) (by decide)

/-- C1.  `calculate_macd` with the default periods: a 25-price input is below
`slow` and yields the empty triple, but a 26-price input — although the
claim promises every input of length ≥ `slow` = 26 is processed without
error — makes the source raise `IndexError` (`dif` has a single element and
the bar computation reads `dif[8]`); only from length 34 on does the
computation go through (34 constant prices give the all-zero series). -/
theorem C1_macd_length_gap :
    (∀ prices : List ℚ, prices.length < 26 →
      calculate_macd prices 12 26 9 = some ([], [], [])) ∧
    calculate_macd (List.replicate 26 (1 : ℚ)) 12 26 9 = none ∧
    calculate_macd (List.replicate 34 (1 : ℚ)) 12 26 9 =
      some (List.replicate 9 0, [0], [0]) := by
  set_option maxRecDepth 4000 in
  refine ⟨?_, by decide, by decide⟩
  intro prices h
  unfold calculate_macd
  rw [if_pos h]

/-- C1 witness: 25 prices are short of the slow period. -/
theorem C1_witness :
    calculate_macd (List.replicate 25 (1 : ℚ)) 12 26 9 = some ([], [], []) :=
  C1_macd_length_gap.1 _ (by decide)

/-- The 30-price constant series makes `calculate_macd` fail: `dif` has 5
elements, `dea` a single (degenerate) one, and the bar loop reads `dif[8]`. -/
theorem macd_fails_at_30 :
    calculate_macd (List.replicate 30 (1 : ℚ)) 12 26 9 = none := by decide

set_option maxRecDepth 8000 in
/-- At 34 prices `calculate_macd` itself succeeds (9-element DIF, 1-element
DEA), but with `DIF[-1] ≠ DEA[-1]` the crossover check of
`_analyze_macd_signal` reads `DEA[-2]` from the 1-element DEA and raises. -/
theorem macdsig_fails_at_34 :
    (calculate_macd (List.replicate 33 (1 : ℚ) ++ [2]) 12 26 9).bind
      (fun t => analyze_macd_signal t.1 t.2.1 t.2.2) = none := by decide

theorem indicators_fail_at_34 (s : ℚ → ℚ) :
    analyze_indicators s (List.replicate 33 (1 : ℚ) ++ [2])
      (List.replicate 33 (1 : ℚ) ++ [2]) (List.replicate 33 (1 : ℚ) ++ [2])
      (List.replicate 33 (1 : ℚ) ++ [2]) = none := by
  simp only [analyze_indicators]
  cases hm : calculate_macd (List.replicate 33 (1 : ℚ) ++ [2]) 12 26 9 with
  | none => rfl
  | some t =>
    obtain ⟨dif, dea, macd⟩ := t
    have h2 := macdsig_fails_at_34
    rw [hm] at h2
    simp only [Option.some_bind] at h2
    simp only [h2]

/-- C2.  `analyze_comprehensive` returns the explicit insufficient-data error
for every window of fewer than 30 candles; but windows the claim promises
yield a fully computed analysis escape with uncaught `IndexError`s (modelled
as `none`) for any interpretation of the `np.std` square root: a window of
exactly 30 candles fails inside `calculate_macd`, and a 34-candle window
whose last close differs fails at `macd["DEA"][-2]` in
`_analyze_macd_signal`. -/
theorem C2_insufficient_and_crash :
    (∀ (sqrtQ : ℚ → ℚ) (klines : List Candle), klines.length < 30 →
      analyze_comprehensive sqrtQ klines = some AnalysisResult.insufficient) ∧
    (∀ sqrtQ : ℚ → ℚ,
      analyze_comprehensive sqrtQ (List.replicate 30 ⟨1, 1, 1, 1, 1⟩) = none) ∧
    (∀ sqrtQ : ℚ → ℚ,
      analyze_comprehensive sqrtQ
        (List.replicate 33 ⟨1, 1, 1, 1, 1⟩ ++ [⟨2, 2, 2, 2, 2⟩]) = none) := by
  refine ⟨?_, ?_, ?_⟩
  · intro sqrtQ klines h
    unfold analyze_comprehensive
    rw [if_pos h]
  · intro sqrtQ
    unfold analyze_comprehensive
    rw [if_neg (by simp)]
    have hcl : (List.replicate 30 (⟨1, 1, 1, 1, 1⟩ : Candle)).map (·.close) =
        List.replicate 30 (1 : ℚ) := by simp
    have hhi : (List.replicate 30 (⟨1, 1, 1, 1, 1⟩ : Candle)).map (·.high) =
        List.replicate 30 (1 : ℚ) := by simp
    have hlo : (List.replicate 30 (⟨1, 1, 1, 1, 1⟩ : Candle)).map (·.low) =
        List.replicate 30 (1 : ℚ) := by simp
    have hvo : (List.replicate 30 (⟨1, 1, 1, 1, 1⟩ : Candle)).map (·.volume) =
        List.replicate 30 (1 : ℚ) := by simp
    simp only [hcl, hhi, hlo, hvo]
    have hind : analyze_indicators sqrtQ (List.replicate 30 (1 : ℚ))
        (List.replicate 30 (1 : ℚ)) (List.replicate 30 (1 : ℚ))
        (List.replicate 30 (1 : ℚ)) = none := by
      unfold analyze_indicators
      rw [macd_fails_at_30]
    rw [hind]
  · intro sqrtQ
    unfold analyze_comprehensive
    rw [if_neg (by simp)]
    have hcl : (List.replicate 33 (⟨1, 1, 1, 1, 1⟩ : Candle) ++
        [(⟨2, 2, 2, 2, 2⟩ : Candle)]).map (·.close) =
        List.replicate 33 (1 : ℚ) ++ [2] := by simp
    have hhi : (List.replicate 33 (⟨1, 1, 1, 1, 1⟩ : Candle) ++
        [(⟨2, 2, 2, 2, 2⟩ : Candle)]).map (·.high) =
        List.replicate 33 (1 : ℚ) ++ [2] := by simp
    have hlo : (List.replicate 33 (⟨1, 1, 1, 1, 1⟩ : Candle) ++
        [(⟨2, 2, 2, 2, 2⟩ : Candle)]).map (·.low) =
        List.replicate 33 (1 : ℚ) ++ [2] := by simp
    have hvo : (List.replicate 33 (⟨1, 1, 1, 1, 1⟩ : Candle) ++
        [(⟨2, 2, 2, 2, 2⟩ : Candle)]).map (·.volume) =
        List.replicate 33 (1 : ℚ) ++ [2] := by simp
    simp only [hcl, hhi, hlo, hvo]
    rw [indicators_fail_at_34 sqrtQ]

/-- C2 witness: a 20-candle window takes the insufficient-data branch. -/
theorem C2_witness :
    analyze_comprehensive (fun _ => 0)
      (List.replicate 20 ⟨1, 1, 1, 1, 1⟩) = some AnalysisResult.insufficient :=
  C2_insufficient_and_crash.1 (fun _ => 0) _ (by decide)

theorem foldl_max_const : ∀ (l : List ℚ) (x c : ℚ),
    (∀ y ∈ l, y = c) → x = c → l.foldl max x = c := by
  intro l
  induction l with
  | nil => intro x c _ hx; simpa using hx
  | cons a as ih =>
    intro x c hall hx
    simp only [List.foldl]
    refine ih _ c (fun y hy => hall y (by simp [hy])) ?_
    rw [hx, hall a (by simp), max_self]

theorem foldl_min_const : ∀ (l : List ℚ) (x c : ℚ),
    (∀ y ∈ l, y = c) → x = c → l.foldl min x = c := by
  intro l
  induction l with
  | nil => intro x c _ hx; simpa using hx
  | cons a as ih =>
    intro x c hall hx
    simp only [List.foldl]
    refine ih _ c (fun y hy => hall y (by simp [hy])) ?_
    rw [hx, hall a (by simp), min_self]

theorem listMax_const (l : List ℚ) (c : ℚ) (hne : l ≠ [])
    (h : ∀ y ∈ l, y = c) : listMax l = c := by
  match l with
  | [] => exact absurd rfl hne
  | x :: xs =>
    unfold listMax
    exact foldl_max_const xs x c (fun y hy => h y (by simp [hy])) (h x (by simp))

theorem listMin_const (l : List ℚ) (c : ℚ) (hne : l ≠ [])
    (h : ∀ y ∈ l, y = c) : listMin l = c := by
  match l with
  | [] => exact absurd rfl hne
  | x :: xs =>
    unfold listMin
    exact foldl_min_const xs x c (fun y hy => h y (by simp [hy])) (h x (by simp))

theorem diffs_nonneg : ∀ (l : List ℚ), List.Chain' (· ≤ ·) l →
    ∀ d ∈ diffs l, 0 ≤ d
  | [], _, d, hd => by simp [diffs] at hd
  | [_], _, d, hd => by simp [diffs] at hd
  | a :: b :: rest, h, d, hd => by
    rw [diffs] at hd
    rcases List.mem_cons.mp hd with rfl | hmem
    · have hab : a ≤ b := (List.chain'_cons.mp h).1
      linarith
    · exact diffs_nonneg (b :: rest) (List.chain'_cons.mp h).2 d hmem

theorem mean_zeros (l : List ℚ) (h : ∀ x ∈ l, x = 0) : mean l = 0 := by
  unfold mean
  rw [List.sum_eq_zero h, zero_div]

theorem rsiAt_avgLoss_zero (gains losses : List ℚ) (period i : ℕ)
    (h : mean ((losses.drop (i + 1 - period)).take period) = 0) :
    rsiAt gains losses period i = 100 := by
  simp only [rsiAt]
  rw [if_pos h]

/-- C7.  The zero-range denominators: a flat KDJ window gives `RSV = 50`
exactly; a price series with no losses gives `RSI = 100` everywhere; but the
Wyckoff phase classifier has no guard — a zero first price makes it perform
the division and fail (`none`), it never reaches a fallback branch. -/
theorem C7_degenerate_guards :
    (∀ (high low close : List ℚ) (n i : ℕ) (c : ℚ),
      (high.drop (i + 1 - n)).take n ≠ [] →
      (low.drop (i + 1 - n)).take n ≠ [] →
      (∀ x ∈ (high.drop (i + 1 - n)).take n, x = c) →
      (∀ x ∈ (low.drop (i + 1 - n)).take n, x = c) →
      rsvAt high low close n i = 50) ∧
    (∀ (gains losses : List ℚ) (period i : ℕ),
      mean ((losses.drop (i + 1 - period)).take period) = 0 →
      rsiAt gains losses period i = 100) ∧
    (∀ (prices : List ℚ) (n i : ℕ), List.Chain' (· ≤ ·) prices →
      i < (calculate_rsi prices n).length →
      (calculate_rsi prices n).getD i 0 = 100) ∧
    (∀ (prices volumes : List ℚ), 10 ≤ prices.length → 10 ≤ volumes.length →
      prices.headD 0 = 0 → identify_phase prices volumes = none) := by
  refine ⟨?_, ?_, ?_, ?_⟩
  · intro high low close n i c hH hL hallH hallL
    unfold rsvAt
    rw [listMax_const _ c hH hallH, listMin_const _ c hL hallL, if_pos rfl]
  · exact rsiAt_avgLoss_zero
  · intro prices n i hmono hi
    unfold calculate_rsi at hi ⊢
    by_cases hg : prices.length < n + 1
    · rw [if_pos hg] at hi
      simp at hi
    · rw [if_neg hg] at hi ⊢
      rw [List.getD_eq_getElem _ _ hi, List.getElem_map]
      have hloss : ∀ x ∈ (diffs prices).map (fun c => |min c 0|), x = 0 := by
        intro x hx
        obtain ⟨ch, hch, rfl⟩ := List.mem_map.mp hx
        rw [min_eq_right (diffs_nonneg prices hmono ch hch), abs_zero]
      exact rsiAt_avgLoss_zero _ _ _ _ (mean_zeros _ (fun x hx =>
        hloss x (List.mem_of_mem_drop (List.mem_of_mem_take hx))))
  · intro prices volumes h1 h2 h0
    unfold identify_phase
    rw [if_neg (by push_neg; omega)]
    simp only [h0]
    rfl

/-- C7 counterexample: the Wyckoff classifier does NOT take a guarded
fallback branch on a degenerate input.  A zero first price makes the
plain-float price-change division raise `ZeroDivisionError`; an all-zero
early volume window makes the `np.float64` volume division yield `nan`
(with a warning, not an exception) and the classifier still returns a phase
dict — 观察阶段 with `volume_change = nan` — rather than any guarded
value. -/
theorem C7_counterexample :
    identify_phase (0 :: List.replicate 9 (1 : ℚ))
      (List.replicate 10 (1 : ℚ)) = none ∧
    identify_phase (List.replicate 10 (1 : ℚ))
      (List.replicate 10 (0 : ℚ)) =
      some ⟨"观察阶段", "等待信号", some 0, some PyFloat.nan⟩ := by
  refine ⟨by decide, by decide⟩

theorem chain'_le_replicate (n : ℕ) (c : ℚ) :
    List.Chain' (· ≤ ·) (List.replicate n c) := by
  induction n with
  | zero => simp
  | succ m ih =>
    rw [List.replicate_succ, List.chain'_cons']
    refine ⟨?_, ih⟩
    intro y hy
    cases m with
    | zero => simp at hy
    | succ k =>
      rw [List.replicate_succ] at hy
      simp only [List.head?_cons, Option.mem_some_iff] at hy
      rw [← hy]

/-- C7 witness: a flat nine-point KDJ window, a constant 15-point RSI input,
and the zero-first-price Wyckoff input. -/
theorem C7_witness :
    rsvAt (List.replicate 9 (5 : ℚ)) (List.replicate 9 (5 : ℚ))
      (List.replicate 9 (5 : ℚ)) 9 8 = 50 ∧
    rsiAt (List.replicate 14 (1 : ℚ)) (List.replicate 14 (0 : ℚ)) 14 13
      = 100 ∧
    (calculate_rsi (List.replicate 15 (1 : ℚ)) 14).getD 0 0 = 100 ∧
    identify_phase (0 :: List.replicate 9 (1 : ℚ))
      (List.replicate 10 (1 : ℚ)) = none :=
  ⟨C7_degenerate_guards.1 _ _ _ 9 8 5 (by decide) (by decide)
      (by decide) (by decide),
   C7_degenerate_guards.2.1 _ _ 14 13 (by decide),
   C7_degenerate_guards.2.2.1 _ 14 0 (chain'_le_replicate 15 1) (by decide),
   C7_degenerate_guards.2.2.2 _ _ (by decide) (by decide) (by decide)⟩

/- Sorting lemmas: equality with the sorted copy characterises weak
monotonicity, which is what the MA alignment check actually tests. -/

theorem insertLe_head? (x : ℚ) (ys : List ℚ) :
    (insertLe x ys).head? = some x ∨ (insertLe x ys).head? = ys.head? := by
  cases ys with
  | nil => left; rfl
  | cons y ys =>
    unfold insertLe
    by_cases h : x ≤ y
    · rw [if_pos h]; left; rfl
    · rw [if_neg h]; right; rfl

theorem insertLe_chain' (x : ℚ) : ∀ (ys : List ℚ),
    List.Chain' (· ≤ ·) ys → List.Chain' (· ≤ ·) (insertLe x ys) := by
  intro ys
  induction ys with
  | nil => intro _; simp [insertLe]
  | cons y ys ih =>
    intro h
    unfold insertLe
    by_cases hxy : x ≤ y
    · rw [if_pos hxy]
      exact h.cons hxy
    · rw [if_neg hxy]
      rw [List.chain'_cons']
      refine ⟨?_, ih (List.chain'_cons'.mp h).2⟩
      intro b hb
      rcases insertLe_head? x ys with hh | hh
      · rw [hh] at hb
        simp only [Option.mem_some_iff] at hb
        rw [← hb]
        linarith [not_le.mp hxy]
      · rw [hh] at hb
        exact (List.chain'_cons'.mp h).1 b hb

theorem sortAsc_chain' (l : List ℚ) : List.Chain' (· ≤ ·) (sortAsc l) := by
  induction l with
  | nil => simp [sortAsc]
  | cons x xs ih => exact insertLe_chain' x _ ih

theorem sortAsc_eq_self (l : List ℚ) (h : List.Chain' (· ≤ ·) l) :
    sortAsc l = l := by
  induction l with
  | nil => rfl
  | cons x xs ih =>
    have hxs := (List.chain'_cons'.mp h).2
    show insertLe x (sortAsc xs) = x :: xs
    rw [ih hxs]
    cases xs with
    | nil => rfl
    | cons y ys =>
      have hxy : x ≤ y := (List.chain'_cons'.mp h).1 y rfl
      unfold insertLe
      rw [if_pos hxy]

theorem eq_sortAsc_iff (l : List ℚ) :
    l = sortAsc l ↔ List.Chain' (· ≤ ·) l := by
  constructor
  · intro h; rw [h]; exact sortAsc_chain' l
  · intro h; exact (sortAsc_eq_self l h).symm

theorem insertGe_head? (x : ℚ) (ys : List ℚ) :
    (insertGe x ys).head? = some x ∨ (insertGe x ys).head? = ys.head? := by
  cases ys with
  | nil => left; rfl
  | cons y ys =>
    unfold insertGe
    by_cases h : y ≤ x
    · rw [if_pos h]; left; rfl
    · rw [if_neg h]; right; rfl

theorem insertGe_chain' (x : ℚ) : ∀ (ys : List ℚ),
    List.Chain' (· ≥ ·) ys → List.Chain' (· ≥ ·) (insertGe x ys) := by
  intro ys
  induction ys with
  | nil => intro _; simp [insertGe]
  | cons y ys ih =>
    intro h
    unfold insertGe
    by_cases hxy : y ≤ x
    · rw [if_pos hxy]
      exact h.cons hxy
    · rw [if_neg hxy]
      rw [List.chain'_cons']
      refine ⟨?_, ih (List.chain'_cons'.mp h).2⟩
      intro b hb
      rcases insertGe_head? x ys with hh | hh
      · rw [hh] at hb
        simp only [Option.mem_some_iff] at hb
        rw [← hb]
        exact le_of_lt (not_le.mp hxy)
      · rw [hh] at hb
        exact (List.chain'_cons'.mp h).1 b hb

theorem sortDesc_chain' (l : List ℚ) : List.Chain' (· ≥ ·) (sortDesc l) := by
  induction l with
  | nil => simp [sortDesc]
  | cons x xs ih => exact insertGe_chain' x _ ih

theorem sortDesc_eq_self (l : List ℚ) (h : List.Chain' (· ≥ ·) l) :
    sortDesc l = l := by
  induction l with
  | nil => rfl
  | cons x xs ih =>
    have hxs := (List.chain'_cons'.mp h).2
    show insertGe x (sortDesc xs) = x :: xs
    rw [ih hxs]
    cases xs with
    | nil => rfl
    | cons y ys =>
      have hxy : x ≥ y := (List.chain'_cons'.mp h).1 y rfl
      unfold insertGe
      rw [if_pos hxy]

theorem eq_sortDesc_iff (l : List ℚ) :
    l = sortDesc l ↔ List.Chain' (· ≥ ·) l := by
  constructor
  · intro h; rw [h]; exact sortDesc_chain' l
  · intro h; exact (sortDesc_eq_self l h).symm

/-- The per-MA loop of `_analyze_ma_signal` sums `±1` over exactly the
entries that contribute a defined last value. -/
theorem ma_foldl_eq (price : ℚ) : ∀ (d : List (ℕ × List (Option ℚ))) (acc : ℚ),
    d.foldl (fun acc pv =>
      match pv.2.getLast? with
      | some (some maValue) => if price > maValue then acc + 1 else acc - 1
      | _ => acc) acc =
    acc + ((d.filterMap (lastDefined)).map
      (fun m => if price > m then (1 : ℚ) else -1)).sum := by
  intro d
  induction d with
  | nil => intro acc; simp
  | cons pv d ih =>
    intro acc
    rw [List.foldl_cons, List.filterMap_cons]
    cases hlast : pv.2.getLast? with
    | none =>
      simp only [lastDefined, hlast]
      exact ih acc
    | some vo =>
      cases vo with
      | none =>
        simp only [lastDefined, hlast]
        exact ih acc
      | some v =>
        simp only [lastDefined, hlast, List.map_cons, List.sum_cons]
        rw [ih]
        by_cases hpv : price > v
        · rw [if_pos hpv, if_pos hpv]; ring
        · rw [if_neg hpv, if_neg hpv]; ring

/-- C9 amended.  The MA signal score is the `±1` sum over the defined last MA
values plus a `±2` alignment term awarded for WEAK (non-strict) monotonic
order, ties favouring the bullish `+2`; the label ladder is as claimed. -/
theorem C9_ma_signal_formula (currentPrice : ℚ)
    (maDict : List (ℕ × List (Option ℚ))) :
    (analyze_ma_signal currentPrice maDict).score =
      ((maDict.filterMap (lastDefined)).map
        (fun m => if currentPrice > m then (1 : ℚ) else -1)).sum +
      (if List.Chain' (· ≥ ·)
          (maDict.filterMap (lastDefined)) then 2
       else if List.Chain' (· ≤ ·)
          (maDict.filterMap (lastDefined)) then -2
       else 0) ∧
    (analyze_ma_signal currentPrice maDict).label =
      (if (analyze_ma_signal currentPrice maDict).score > 3 then "强烈看多"
       else if (analyze_ma_signal currentPrice maDict).score > 0 then "看多"
       else if (analyze_ma_signal currentPrice maDict).score < -3 then "强烈看空"
       else if (analyze_ma_signal currentPrice maDict).score < 0 then "看空"
       else "中性") := by
  constructor
  · unfold analyze_ma_signal
    dsimp only
    rw [ma_foldl_eq]
    rw [zero_add]
    by_cases hdesc : List.Chain' (· ≥ ·)
        (maDict.filterMap (lastDefined))
    · rw [if_pos ((eq_sortDesc_iff _).mpr hdesc), if_pos hdesc]
    · rw [if_neg (fun h => hdesc ((eq_sortDesc_iff _).mp h)),
        if_neg hdesc]
      by_cases hasc : List.Chain' (· ≤ ·)
          (maDict.filterMap (lastDefined))
      · rw [if_pos ((eq_sortAsc_iff _).mpr hasc), if_pos hasc,
          sub_eq_add_neg]
      · rw [if_neg (fun h => hasc ((eq_sortAsc_iff _).mp h)),
          if_neg hasc, add_zero]
  · rfl

/-- The alignment term as the claim words it: `±2` only for STRICT monotonic
ordering of the last MA values (for comparison with `analyze_ma_signal`). -/
def strictDescB : List ℚ → Bool
  | a :: b :: rest => (b < a) && strictDescB (b :: rest)
  | _ => true

/-- Strictly ascending check (see `strictDescB`). -/
def strictAscB : List ℚ → Bool
  | a :: b :: rest => (a < b) && strictAscB (b :: rest)
  | _ => true

/-- The MA score as the claim describes it, with strict-order alignment. -/
def claim_ma_score (currentPrice : ℚ)
    (maDict : List (ℕ × List (Option ℚ))) : ℚ :=
  ((maDict.filterMap (lastDefined)).map
    (fun m => if currentPrice > m then (1 : ℚ) else -1)).sum +
  (if strictDescB (maDict.filterMap (lastDefined)) then 2
   else if strictAscB (maDict.filterMap (lastDefined))
     then -2
   else 0)

/-- C9 counterexample: two equal last MA values below the price.  The code
awards the `+2` bullish alignment (Python's `sorted` comparison is
non-strict), scoring `4` = strong-bull, while the claim's strict-order rule
scores `2` = plain bull. -/
theorem C9_counterexample :
    (analyze_ma_signal 12 [(5, [some 10]), (10, [some 10])]).score = 4 ∧
    claim_ma_score 12 [(5, [some 10]), (10, [some 10])] = 2 ∧
    (analyze_ma_signal 12 [(5, [some 10]), (10, [some 10])]).label
      = "强烈看多" := by
  refine ⟨by decide, by decide, by decide⟩

/- Spec-side score formulas of §4.7, for comparison with `calculate_score`. -/

/-- Spec formula: `0.25·MA + 0.25·MACD + 0.20·KDJ + 0.15·BOLL + 0.15·RSI`. -/
def spec_indicator_score (ind : IndicatorsAnalysis) : ℚ :=
  0.25 * ind.ma.score + 0.25 * ind.macd.score + 0.20 * ind.kdj.score +
  0.15 * ind.boll.score + 0.15 * ind.rsi.score

/-- Spec formula: `confidence·2 − 1`, sign forced by the prediction text. -/
def spec_elliott_score (ell : ElliottAnalysis) : ℚ :=
  if strHasSub ell.prediction.prediction "上涨" then
    |ell.prediction.confidence * 2 - 1|
  else -|ell.prediction.confidence * 2 - 1|

/-- Spec formula: `strength·2 − 1`, sign forced by the trend label. -/
def spec_chan_score (chan : ChanAnalysis) : ℚ :=
  if strHasSub chan.trend.trend "上涨" then |chan.trend.strength * 2 - 1|
  else -|chan.trend.strength * 2 - 1|

/-- Spec formula: `strength·2 − 1`, sign forced by the supply/demand trend. -/
def spec_wyckoff_score (wyck : WyckoffAnalysis) : ℚ :=
  if wyck.supplyDemand.trend = some "上涨" then
    |wyck.supplyDemand.strength * 2 - 1|
  else -|wyck.supplyDemand.strength * 2 - 1|

/-- Spec formula:
`total_raw = 0.4·indicator_score + 0.2·(elliott + chan + wyckoff)`. -/
def spec_total_raw (ind : IndicatorsAnalysis) (ell : ElliottAnalysis)
    (chan : ChanAnalysis) (wyck : WyckoffAnalysis) : ℚ :=
  0.4 * spec_indicator_score ind +
  0.2 * (spec_elliott_score ell + spec_chan_score chan +
    spec_wyckoff_score wyck)

theorem round2_nonneg_of (x : ℚ) (h : 0 ≤ x) : 0 ≤ round2 x := by
  have h1 : (0 : ℤ) ≤ rhe (x * 100) := by
    apply int_le_rhe
    push_cast
    linarith
  have h2 : (0 : ℚ) ≤ (rhe (x * 100) : ℚ) := by exact_mod_cast h1
  unfold round2
  linarith

theorem round2_le_100 (x : ℚ) (h : x ≤ 100) : round2 x ≤ 100 := by
  have h1 : rhe (x * 100) ≤ (10000 : ℤ) := by
    apply rhe_le_int
    push_cast
    linarith
  have h2 : ((rhe (x * 100)) : ℚ) ≤ 10000 := by exact_mod_cast h1
  unfold round2
  linarith

/-- C3 amended.  Each returned component of `_calculate_score` is the
round-to-two-decimals of the spec formula; the total is the rounded clamp of
the affine map, and always lies in `[0, 100]`. -/
theorem C3_score_formula (ind : IndicatorsAnalysis) (fib : FibAnalysis)
    (ell : ElliottAnalysis) (chan : ChanAnalysis) (wyck : WyckoffAnalysis) :
    (calculate_score ind fib ell chan wyck).indicatorScore =
      round2 (spec_indicator_score ind) ∧
    (calculate_score ind fib ell chan wyck).total =
      round2 (max 0 (min 100
        ((spec_total_raw ind ell chan wyck + 5) / 10 * 100))) ∧
    0 ≤ (calculate_score ind fib ell chan wyck).total ∧
    (calculate_score ind fib ell chan wyck).total ≤ 100 := by
  refine ⟨?_, ?_, ?_, ?_⟩
  · unfold calculate_score spec_indicator_score
    dsimp only
    congr 1
    ring
  · unfold calculate_score spec_total_raw spec_indicator_score
      spec_elliott_score spec_chan_score spec_wyckoff_score
    dsimp only
    congr 2
    ring
  · unfold calculate_score
    dsimp only
    exact round2_nonneg_of _ (le_max_left 0 _)
  · unfold calculate_score
    dsimp only
    exact round2_le_100 _ (max_le (by norm_num) (min_le_left _ _))

/-- C3 counterexample input: only the MACD family scores (`0.5`). -/
def c3Indicators : IndicatorsAnalysis :=
  ⟨⟨"中性", 0⟩, ⟨"买入", 0.5⟩, ⟨"观望", 0⟩, ⟨"中性", 0⟩, ⟨"中性", 0⟩, 0⟩

/-- C3 counterexample input: an empty Fibonacci analysis. -/
def c3Fib : FibAnalysis := ⟨0, 0, [], [], []⟩

/-- C3 counterexample input: the neutral wave prediction. -/
def c3Elliott : ElliottAnalysis :=
  ⟨⟨"震荡", "盘整", some 0, some 0⟩,
   ⟨"震荡为主，等待突破", 0.5, ⟨"震荡", "盘整", some 0, some 0⟩⟩⟩

/-- C3 counterexample input: the oscillating trend. -/
def c3Chan : ChanAnalysis := ⟨0, ⟨"震荡", 0.5, some 0⟩⟩

/-- C3 counterexample input: the balanced supply/demand result. -/
def c3Wyckoff : WyckoffAnalysis :=
  ⟨⟨"观察阶段", "等待信号", some 0, some (PyFloat.fin 0)⟩,
   ⟨"供需平衡", 0.5, some "下跌"⟩⟩

/-- C3 counterexample: with a lone MACD score of `0.5` the claimed exact
equation `indicator_score = 0.25·MA + … = 0.125` fails — the code rounds the
returned component to two decimals, giving `0.12`. -/
theorem C3_counterexample :
    (calculate_score c3Indicators c3Fib c3Elliott c3Chan
      c3Wyckoff).indicatorScore = 0.12 ∧
    spec_indicator_score c3Indicators = 0.125 ∧
    (calculate_score c3Indicators c3Fib c3Elliott c3Chan
      c3Wyckoff).indicatorScore ≠ spec_indicator_score c3Indicators := by
  refine ⟨by decide, by decide, by decide⟩

/-- Two distinct whole-cent quantities differ by at least one cent. -/
theorem cent_le_sub (x p : ℚ) (hx : Cent x) (hp : Cent p) (h : x < p) :
    x ≤ p - 1/100 := by
  obtain ⟨a, rfl⟩ := hx
  obtain ⟨b, rfl⟩ := hp
  have hab : a < b := by
    have : (a : ℚ) < (b : ℚ) := by linarith
    exact_mod_cast this
  have h1 : a ≤ b - 1 := by omega
  have h2 : (a : ℚ) ≤ (b : ℚ) - 1 := by exact_mod_cast h1
  linarith

/-- A positive whole-cent quantity is at least one cent. -/
theorem cent_pos (x : ℚ) (hx : Cent x) (h : 0 < x) : 1/100 ≤ x := by
  have := cent_le_sub 0 x ⟨0, by norm_num⟩ hx h
  linarith

/-- C4 amended.  For a positive whole-cent ATR, with the used Fibonacci
levels whole-cent and strictly on the correct side of the (whole-cent)
price, every stop-loss sits strictly below the price and every take-profit
strictly above it on the long side, and reversed on the short side.  (The
unconditional claim fails: `atr = 0` or the two-decimal rounding can land a
level exactly on — or across — the price.) -/
theorem C4_stop_take_ordering (price atr : ℚ) (fib : FibAnalysis) (s r : ℚ)
    (hprice : Cent price) (hatr : Cent atr) (hpos : 0 < atr)
    (hsup : fib.support.head? = some s) (hs : Cent s) (hslt : s < price)
    (hres : fib.resistance.head? = some r) (hr : Cent r) (hrgt : price < r)
    (hlowc : Cent fib.low) (hlow : fib.low < price)
    (hhighc : Cent fib.high) (hhigh : price < fib.high) :
    ((calculate_stop_loss_long price atr fib).m15 < price ∧
     (calculate_stop_loss_long price atr fib).h1 < price ∧
     (calculate_stop_loss_long price atr fib).h4 < price ∧
     (calculate_stop_loss_long price atr fib).h24 < price) ∧
    (price < (calculate_take_profit_long price atr fib).m15 ∧
     price < (calculate_take_profit_long price atr fib).h1 ∧
     price < (calculate_take_profit_long price atr fib).h4 ∧
     price < (calculate_take_profit_long price atr fib).h24) ∧
    (price < (calculate_stop_loss_short price atr fib).m15 ∧
     price < (calculate_stop_loss_short price atr fib).h1 ∧
     price < (calculate_stop_loss_short price atr fib).h4 ∧
     price < (calculate_stop_loss_short price atr fib).h24) ∧
    ((calculate_take_profit_short price atr fib).m15 < price ∧
     (calculate_take_profit_short price atr fib).h1 < price ∧
     (calculate_take_profit_short price atr fib).h4 < price ∧
     (calculate_take_profit_short price atr fib).h24 < price) := by
  have hcent : 1/100 ≤ atr := cent_pos atr hatr hpos
  have hsle : s ≤ price - 1/100 := cent_le_sub s price hs hprice hslt
  have hrge : price + 1/100 ≤ r := by
    have := cent_le_sub price r hprice hr hrgt
    linarith
  have hlle : fib.low ≤ price - 1/100 :=
    cent_le_sub fib.low price hlowc hprice hlow
  have hhge : price + 1/100 ≤ fib.high := by
    have := cent_le_sub price fib.high hprice hhighc hhigh
    linarith
  have hsupD : fib.support.headD (price * 0.95) = s := by
    cases hfs : fib.support with
    | nil => rw [hfs] at hsup; cases hsup
    | cons a t =>
      rw [hfs] at hsup
      simp only [List.head?_cons, Option.some.injEq] at hsup
      rw [List.headD_cons, hsup]
  have hresD : fib.resistance.headD (price * 1.05) = r := by
    cases hfr : fib.resistance with
    | nil => rw [hfr] at hres; cases hres
    | cons a t =>
      rw [hfr] at hres
      simp only [List.head?_cons, Option.some.injEq] at hres
      rw [List.headD_cons, hres]
  unfold calculate_stop_loss_long calculate_take_profit_long
    calculate_stop_loss_short calculate_take_profit_short
  rw [hsupD, hresD]
  dsimp only
  refine ⟨⟨?_, ?_, ?_, ?_⟩, ⟨?_, ?_, ?_, ?_⟩, ⟨?_, ?_, ?_, ?_⟩,
    ⟨?_, ?_, ?_, ?_⟩⟩
  · exact round2_lt_of_le _ _ (by linarith)
  · exact round2_lt_of_le _ _ (max_le (by linarith) hsle)
  · exact round2_lt_of_le _ _ (max_le (by linarith) hsle)
  · exact round2_lt_of_le _ _ (max_le (by linarith) hlle)
  · exact lt_round2_of_le _ _ (by linarith)
  · exact lt_round2_of_le _ _ (le_min (by linarith) hrge)
  · exact lt_round2_of_le _ _ (le_min (by linarith) hrge)
  · exact lt_round2_of_le _ _ (le_min (by linarith) hhge)
  · exact lt_round2_of_le _ _ (by linarith)
  · exact lt_round2_of_le _ _ (le_min (by linarith) hrge)
  · exact lt_round2_of_le _ _ (le_min (by linarith) hrge)
  · exact lt_round2_of_le _ _ (le_min (by linarith) hhge)
  · exact round2_lt_of_le _ _ (by linarith)
  · exact round2_lt_of_le _ _ (max_le (by linarith) hsle)
  · exact round2_lt_of_le _ _ (max_le (by linarith) hsle)
  · exact round2_lt_of_le _ _ (max_le (by linarith) hlle)

/-- C4 counterexample.  First: with a zero ATR (a perfectly flat recent
window) a long recommendation's 15-minute stop-loss equals the current
price instead of sitting strictly below it.  Second: even with a positive
ATR, a Fibonacci level exactly at the current price (high 110, low 90,
price 100 = the 0.5 level) is classified as resistance and caps the 1-hour
take-profit at the price itself. -/
theorem C4_counterexample :
    ((generate_recommendations 100 ⟨70, 0, 0, 0, 0⟩ 0
      ⟨110, 90, [], [95], [105]⟩).direction = Direction.long ∧
     (generate_recommendations 100 ⟨70, 0, 0, 0, 0⟩ 0
      ⟨110, 90, [], [95], [105]⟩).stopLoss.m15 = some 100) ∧
    ((generate_recommendations 100 ⟨70, 0, 0, 0, 0⟩ 1
      (analyze_fibonacci [] (List.replicate 20 110) (List.replicate 20 90)
        100)).direction = Direction.long ∧
     (generate_recommendations 100 ⟨70, 0, 0, 0, 0⟩ 1
      (analyze_fibonacci [] (List.replicate 20 110) (List.replicate 20 90)
        100)).takeProfit.h1 = some 100) := by
  set_option maxRecDepth 8000 in
  refine ⟨⟨by decide, by decide⟩, ⟨by decide, by decide⟩⟩

/-- C4 witness: price 100, ATR 1, support 95, resistance 105, range 90–110. -/
theorem C4_witness :
    (0 : ℚ) < 1 ∧
    ((calculate_stop_loss_long 100 1 ⟨110, 90, [], [95], [105]⟩).m15 < 100 ∧
     (calculate_stop_loss_long 100 1 ⟨110, 90, [], [95], [105]⟩).h1 < 100 ∧
     (calculate_stop_loss_long 100 1 ⟨110, 90, [], [95], [105]⟩).h4 < 100 ∧
     (calculate_stop_loss_long 100 1 ⟨110, 90, [], [95], [105]⟩).h24 < 100) ∧
    (100 < (calculate_take_profit_long 100 1 ⟨110, 90, [], [95], [105]⟩).m15 ∧
     100 < (calculate_take_profit_long 100 1 ⟨110, 90, [], [95], [105]⟩).h1 ∧
     100 < (calculate_take_profit_long 100 1 ⟨110, 90, [], [95], [105]⟩).h4 ∧
     100 < (calculate_take_profit_long 100 1 ⟨110, 90, [], [95], [105]⟩).h24) ∧
    (100 < (calculate_stop_loss_short 100 1 ⟨110, 90, [], [95], [105]⟩).m15 ∧
     100 < (calculate_stop_loss_short 100 1 ⟨110, 90, [], [95], [105]⟩).h1 ∧
     100 < (calculate_stop_loss_short 100 1 ⟨110, 90, [], [95], [105]⟩).h4 ∧
     100 < (calculate_stop_loss_short 100 1 ⟨110, 90, [], [95], [105]⟩).h24) ∧
    ((calculate_take_profit_short 100 1 ⟨110, 90, [], [95], [105]⟩).m15 < 100 ∧
     (calculate_take_profit_short 100 1 ⟨110, 90, [], [95], [105]⟩).h1 < 100 ∧
     (calculate_take_profit_short 100 1 ⟨110, 90, [], [95], [105]⟩).h4 < 100 ∧
     (calculate_take_profit_short 100 1 ⟨110, 90, [], [95], [105]⟩).h24 < 100) :=
  ⟨by norm_num,
   (C4_stop_take_ordering 100 1 ⟨110, 90, [], [95], [105]⟩ 95 105
      ⟨10000, by norm_num⟩ ⟨100, by norm_num⟩ (by norm_num)
      rfl ⟨9500, by norm_num⟩ (by norm_num)
      rfl ⟨10500, by norm_num⟩ (by norm_num)
      ⟨9000, by norm_num⟩ (by norm_num)
      ⟨11000, by norm_num⟩ (by norm_num)).1,
   (C4_stop_take_ordering 100 1 ⟨110, 90, [], [95], [105]⟩ 95 105
      ⟨10000, by norm_num⟩ ⟨100, by norm_num⟩ (by norm_num)
      rfl ⟨9500, by norm_num⟩ (by norm_num)
      rfl ⟨10500, by norm_num⟩ (by norm_num)
      ⟨9000, by norm_num⟩ (by norm_num)
      ⟨11000, by norm_num⟩ (by norm_num)).2.1,
   (C4_stop_take_ordering 100 1 ⟨110, 90, [], [95], [105]⟩ 95 105
      ⟨10000, by norm_num⟩ ⟨100, by norm_num⟩ (by norm_num)
      rfl ⟨9500, by norm_num⟩ (by norm_num)
      rfl ⟨10500, by norm_num⟩ (by norm_num)
      ⟨9000, by norm_num⟩ (by norm_num)
      ⟨11000, by norm_num⟩ (by norm_num)).2.2.1,
   (C4_stop_take_ordering 100 1 ⟨110, 90, [], [95], [105]⟩ 95 105
      ⟨10000, by norm_num⟩ ⟨100, by norm_num⟩ (by norm_num)
      rfl ⟨9500, by norm_num⟩ (by norm_num)
      rfl ⟨10500, by norm_num⟩ (by norm_num)
      ⟨9000, by norm_num⟩ (by norm_num)
      ⟨11000, by norm_num⟩ (by norm_num)).2.2.2⟩

/-- C5 amended.  The risk-reward entry is `round2(|tp−price|/|price−sl|)`
when both legs are non-null AND nonzero and the risk is nonzero; it is the
NUMBER `0` (not null) when the risk is zero; it is null when either leg is
null or exactly `0` (Python truthiness).  In the pipeline a flat direction
yields all-null entries, and a non-flat direction has a non-null 15-minute
entry whenever its rounded legs are nonzero. -/
theorem C5_risk_reward :
    (∀ (price sl tp : ℚ), sl ≠ 0 → tp ≠ 0 → price - sl ≠ 0 →
      rrOne price (some sl) (some tp) =
        some (round2 (|tp - price| / |price - sl|))) ∧
    (∀ (price tp : ℚ), price ≠ 0 → tp ≠ 0 →
      rrOne price (some price) (some tp) = some 0) ∧
    (∀ (price : ℚ) (o : Option ℚ), rrOne price none o = none) ∧
    (∀ (price : ℚ) (o : Option ℚ), rrOne price o none = none) ∧
    (∀ (price : ℚ) (o : Option ℚ), rrOne price (some 0) o = none) ∧
    (∀ (price : ℚ) (s : Option ℚ), rrOne price s (some 0) = none) ∧
    (∀ (price : ℚ) (score : ScoreDict) (vol : ℚ) (fib : FibAnalysis),
      (generate_recommendations price score vol fib).direction =
        Direction.flat →
      (generate_recommendations price score vol fib).riskReward =
        ⟨none, none, none, none⟩) ∧
    (∀ (price : ℚ) (score : ScoreDict) (vol : ℚ) (fib : FibAnalysis),
      (generate_recommendations price score vol fib).direction ≠
        Direction.flat →
      round2 (price - vol * 1) ≠ 0 → round2 (price + vol * 1) ≠ 0 →
      round2 (price + vol * 1.5) ≠ 0 → round2 (price - vol * 1.5) ≠ 0 →
      (generate_recommendations price score vol fib).riskReward.m15 ≠
        none) := by
  refine ⟨?_, ?_, ?_, ?_, ?_, ?_, ?_, ?_⟩
  · intro price sl tp hsl htp hrisk
    simp only [rrOne]
    rw [if_neg (not_or.mpr ⟨hsl, htp⟩)]
    rw [if_pos (abs_pos.mpr hrisk)]
  · intro price tp hp htp
    simp only [rrOne]
    rw [if_neg (not_or.mpr ⟨hp, htp⟩)]
    rw [if_neg (by simp)]
    norm_num
    decide
  · intro price o; rfl
  · intro price o; cases o <;> rfl
  · intro price o
    cases o with
    | none => rfl
    | some t => simp [rrOne]
  · intro price s
    cases s with
    | none => rfl
    | some t => simp [rrOne]
  · intro price score vol fib hflat
    simp only [generate_recommendations] at hflat ⊢
    rcases hdc : tradeDirection score.total with ⟨dir, conf⟩
    rw [hdc] at hflat
    cases dir with
    | long => simp at hflat
    | short => simp at hflat
    | flat => rfl
  · intro price score vol fib hdir h1 h2 h3 h4
    simp only [generate_recommendations] at hdir ⊢
    rcases hdc : tradeDirection score.total with ⟨dir, conf⟩
    rw [hdc] at hdir
    cases dir with
    | flat => simp at hdir
    | long =>
      dsimp only [calculate_risk_reward, Horizons.map,
        calculate_stop_loss_long, calculate_take_profit_long]
      simp only [rrOne]
      rw [if_neg (not_or.mpr ⟨h1, h3⟩)]
      simp
    | short =>
      dsimp only [calculate_risk_reward, Horizons.map,
        calculate_stop_loss_short, calculate_take_profit_short]
      simp only [rrOne]
      rw [if_neg (not_or.mpr ⟨h2, h4⟩)]
      simp

/-- C5 counterexample: a zero risk yields the number `0`, not null; and a
leg that is defined but exactly `0.0` is treated as missing. -/
theorem C5_counterexample :
    rrOne 100 (some 100) (some 103) = some 0 ∧
    rrOne 100 (some 0) (some 103) = none := by
  refine ⟨by decide, by decide⟩

/-- C5 witness: the formula entry, the flat all-null map, and a non-null
long 15-minute entry. -/
theorem C5_witness :
    rrOne 100 (some 99) (some 103) =
      some (round2 (|103 - 100| / |100 - 99|)) ∧
    (generate_recommendations 100 ⟨50, 0, 0, 0, 0⟩ 1
      ⟨110, 90, [], [95], [105]⟩).riskReward = ⟨none, none, none, none⟩ ∧
    (generate_recommendations 100 ⟨70, 0, 0, 0, 0⟩ 1
      ⟨110, 90, [], [95], [105]⟩).riskReward.m15 ≠ none :=
  ⟨C5_risk_reward.1 100 99 103 (by norm_num) (by norm_num) (by norm_num),
   C5_risk_reward.2.2.2.2.2.2.1 100 ⟨50, 0, 0, 0, 0⟩ 1
     ⟨110, 90, [], [95], [105]⟩ (by decide),
   C5_risk_reward.2.2.2.2.2.2.2 100 ⟨70, 0, 0, 0, 0⟩ 1
     ⟨110, 90, [], [95], [105]⟩ (by decide) (by decide) (by decide)
     (by decide) (by decide)⟩

/-- C6 witness: the five regions at 70, 60, 30, 40 and 50. -/
theorem C6_witness :
    tradeDirection 70 = (Direction.long, Confidence.high) ∧
    tradeDirection 60 = (Direction.long, Confidence.medium) ∧
    tradeDirection 30 = (Direction.short, Confidence.high) ∧
    tradeDirection 40 = (Direction.short, Confidence.medium) ∧
    tradeDirection 50 = (Direction.flat, Confidence.noTrade) :=
  ⟨(C6_direction_thresholds 70).1 (by norm_num),
   (C6_direction_thresholds 60).2.1 (by norm_num),
   (C6_direction_thresholds 30).2.2.1 (by norm_num),
   (C6_direction_thresholds 40).2.2.2.1 (by norm_num),
   (C6_direction_thresholds 50).2.2.2.2 (by norm_num)⟩

end TS
